import Mathlib

/-!
Shallow embedding of the SCCM checkers (csr_checker.py and findMissingCSR.py).

Filesystem paths are lists of components; a path string is rendered with a
leading slash and slash separators, matching os.path.join on absolute roots.
Machine time (today's date, the current UTC hour) enters as explicit
parameters, since the scripts read it from datetime.
-/

namespace SCCM

/-- Rendering of an absolute path built by os.path.join. -/
def pathStr (p : List String) : String := "/" ++ String.intercalate "/" p

/-- Zero-padding to two digits, as strftime %m / %d / %H produce. -/
def pad2 (n : Nat) : String := if n < 10 then "0" ++ toString n else toString n

/-- Zero-padding to four digits, as strftime %Y produces. -/
def pad4 (n : Nat) : String :=
  if n < 10 then "000" ++ toString n
  else if n < 100 then "00" ++ toString n
  else if n < 1000 then "0" ++ toString n
  else toString n

/-- Gregorian leap-year rule, as implemented by Python's datetime/calendar. -/
def isLeap (y : Nat) : Bool := (y % 4 == 0 && y % 100 != 0) || (y % 400 == 0)

/-- Number of days of a month, as calendar.monthrange(y, m)[1] returns. -/
def daysInMonth (y m : Nat) : Nat :=
  if m == 2 then (if isLeap y then 29 else 28)
  else if m == 4 || m == 6 || m == 9 || m == 11 then 30
  else 31

/-- Validity of a (year, month, day) triple for Python's
datetime.datetime(year, month, day) constructor. -/
def isValidDate (y m d : Nat) : Bool :=
  1 ≤ y && y ≤ 9999 && 1 ≤ m && m ≤ 12 && 1 ≤ d && d ≤ daysInMonth y m

/-- A calendar date, as datetime.date.today() yields it. -/
structure Date where
  y : Nat
  m : Nat
  d : Nat

/-- datetime.date.today() - timedelta(days=1), for a valid date. -/
def yesterday (t : Date) : Date :=
  if t.d > 1 then ⟨t.y, t.m, t.d - 1⟩
  else if t.m > 1 then ⟨t.y, t.m - 1, daysInMonth t.y (t.m - 1)⟩
  else ⟨t.y - 1, 12, 31⟩

/-- (year, month) of the month before today's month, as computed by
today().replace(day=1) - timedelta(days=1) in get_args. -/
def premonYM (t : Date) : Nat × Nat :=
  if t.m > 1 then (t.y, t.m - 1) else (t.y - 1, 12)

/-- The date-stamped filename, date(y, m, d).strftime("%Y%m%d") + ".txt". -/
def dateFilename (y m d : Nat) : String := pad4 y ++ pad2 m ++ pad2 d ++ ".txt"

end SCCM

namespace Csr
open SCCM

/-- CSR_path = os.path.join("/home", "ftpuser", "upload"). -/
def CSR_path : List String := ["home", "ftpuser", "upload"]

/-- dest_path = os.path.join(sccm_home, "samples", "logs", "collectors"). -/
def dest_path : List String := ["opt", "ibm", "sccm", "samples", "logs", "collectors"]

/-- The hard-coded job catalog iterated by check_day. -/
def job_names : List String :=
  ["consolidation_backups", "consolidation_cinder_volume", "consolidation_nova_compute"]

/-- The filesystem operations csr_checker.py performs.  copy2 returns none on
success and the IOError text on failure, as shutil.copy2 raises. -/
structure FS where
  isFile : List String → Bool
  isDir : List String → Bool
  walkSubdirs : List String → List String
  writable : List String → Bool
  makedirsOk : List String → Bool
  copy2 : List String → List String → Option String

/-- os.path.exists. -/
def FS.pathExists (fs : FS) (p : List String) : Bool := fs.isDir p || fs.isFile p

/-- A copy operation performed by shutil.copy2(src, destination_directory). -/
abbrev CopyOp := List String × List String

def srcFile (y m d : Nat) (job sub : String) : List String :=
  CSR_path ++ [job, sub, dateFilename y m d]

def destDir (job sub : String) : List String := dest_path ++ [job, sub]

def fileNotFoundMsg (p : List String) : String := "File not found: " ++ pathStr p

def notWritableMsg (p : List String) : String := "Unable to write to " ++ pathStr p

def copyFailMsg (e : String) : String := "Unable to copy file. " ++ e ++ "\n"

def pathMissingMsg (p : List String) : String :=
  "The path " ++ pathStr p ++ " does not exist.\n"

/-- The per-(job, sub_dir_name) body of check_day (csr_checker.py 241-310).
If the source file is absent one error is recorded and no copy happens.
Otherwise, a missing destination directory is created with os.makedirs; on a
makedirs exception the handler line reads the undefined name e
(except e as exception), so the NameError propagates and the run aborts:
this is the Except.error case.  Then the writability check records an error
if os.access denies W_OK, and the copy2 call records an error on IOError;
the copy is attempted in every path that reaches it. -/
def checkArtifact (fs : FS) (y m d : Nat) (job sub : String) :
    Except Unit (List String × List CopyOp) :=
  let src := srcFile y m d job sub
  let dst := destDir job sub
  if !(fs.isFile src) then
    Except.ok ([fileNotFoundMsg src], [])
  else
    if !(fs.isDir dst) && !(fs.makedirsOk dst) then
      Except.error ()
    else
      let writeErrs := if !(fs.writable dst) then [notWritableMsg dst] else []
      let copyErrs :=
        match fs.copy2 src dst with
        | none => []
        | some e => [copyFailMsg e]
      Except.ok (writeErrs ++ copyErrs, [(src, dst)])

/-- The inner loop of check_day over the sub-entity directories discovered by
os.walk under the job path. -/
def checkSubs (fs : FS) (y m d : Nat) (job : String) :
    List String → Except Unit (List String × List CopyOp)
  | [] => Except.ok ([], [])
  | sub :: rest =>
    match checkArtifact fs y m d job sub with
    | Except.error e => Except.error e
    | Except.ok r =>
      match checkSubs fs y m d job rest with
      | Except.error e => Except.error e
      | Except.ok rs => Except.ok (r.1 ++ rs.1, r.2 ++ rs.2)

/-- One job of check_day: if the job path does not exist, a single error is
recorded for the whole job and nothing is enumerated; otherwise every
discovered sub-entity directory is checked. -/
def checkJob (fs : FS) (y m d : Nat) (job : String) :
    Except Unit (List String × List CopyOp) :=
  let jobPath := CSR_path ++ [job]
  if fs.pathExists jobPath then
    checkSubs fs y m d job (fs.walkSubdirs jobPath)
  else
    Except.ok ([pathMissingMsg jobPath], [])

/-- The outer loop of check_day over the job catalog. -/
def checkJobs (fs : FS) (y m d : Nat) :
    List String → Except Unit (List String × List CopyOp)
  | [] => Except.ok ([], [])
  | j :: rest =>
    match checkJob fs y m d j with
    | Except.error e => Except.error e
    | Except.ok r =>
      match checkJobs fs y m d rest with
      | Except.error e => Except.error e
      | Except.ok rs => Except.ok (r.1 ++ rs.1, r.2 ++ rs.2)

/-- check_day (csr_checker.py 226-314). -/
def check_day (fs : FS) (y m d : Nat) : Except Unit (List String × List CopyOp) :=
  checkJobs fs y m d job_names

/-- The (year, month, last-day-checked) plan computed at the top of
check_month (csr_checker.py 317-336).  With curmon set, the loop bound is
yesterday's day-of-month, and on the 1st the year/month are reassigned to the
previous month; without curmon the bound is calendar.monthrange. -/
def check_month_plan (today : Date) (curmon : Bool) (year month : Nat) :
    Nat × Nat × Nat :=
  if curmon then
    let dom := (yesterday today).d
    if today.d == 1 then
      let p := premonYM today
      (p.1, p.2, dom)
    else (year, month, dom)
  else (year, month, daysInMonth year month)

/-- The day loop of check_month (day = 01; while day <= bound). -/
def checkDays (fs : FS) (y m : Nat) :
    List Nat → Except Unit (List String × List CopyOp)
  | [] => Except.ok ([], [])
  | d :: rest =>
    match check_day fs y m d with
    | Except.error e => Except.error e
    | Except.ok r =>
      match checkDays fs y m rest with
      | Except.error e => Except.error e
      | Except.ok rs => Except.ok (r.1 ++ rs.1, r.2 ++ rs.2)

def checkDaysPlan (fs : FS) (p : Nat × Nat × Nat) :
    Except Unit (List String × List CopyOp) :=
  checkDays fs p.1 p.2.1 (List.range' 1 p.2.2)

/-- check_month (csr_checker.py 317-343). -/
def check_month (fs : FS) (today : Date) (curmon : Bool) (year month : Nat) :
    Except Unit (List String × List CopyOp) :=
  checkDaysPlan fs (check_month_plan today curmon year month)

/-- The month-mode argument accepted by get_args. -/
inductive MonthArg
  | premon
  | curmon

/-- The PREMON/CURMON resolution in get_args (csr_checker.py 196-204):
(curmon flag, resolved year, resolved month). -/
def resolveMonthYM (today : Date) : MonthArg → Bool × Nat × Nat
  | MonthArg.premon => (false, (premonYM today).1, (premonYM today).2)
  | MonthArg.curmon => (true, today.y, today.m)

/-- A whole-month run: get_args month resolution followed by check_month. -/
def run_month (fs : FS) (today : Date) (ma : MonthArg) :
    Except Unit (List String × List CopyOp) :=
  let r := resolveMonthYM today ma
  check_month fs today r.1 r.2.1 r.2.2

/-- The reporting tail of main (csr_checker.py 346-361) applied to a finished
check: yields (error list, number of emailer.build_email invocations,
process exit code).  error_found is true exactly when the error list is
non-empty, since every append site also sets the flag. -/
def report (r : Except Unit (List String × List CopyOp)) :
    Except Unit (List String × Nat × Nat) :=
  match r with
  | Except.error e => Except.error e
  | Except.ok (errs, _) =>
    if errs.isEmpty then Except.ok (errs, 0, 0) else Except.ok (errs, 1, 1)

/-- main for a single-day check. -/
def main_day (fs : FS) (y m d : Nat) : Except Unit (List String × Nat × Nat) :=
  report (check_day fs y m d)

/-- main for a whole-month check. -/
def main_month (fs : FS) (today : Date) (ma : MonthArg) :
    Except Unit (List String × Nat × Nat) :=
  report (run_month fs today ma)

/-- A day run including get_args date validation (csr_checker.py 209-217):
an invalid date exits with code 2 before any filesystem access. -/
def run_day (fs : FS) (y m d : Nat) : Except Unit (List String × Nat × Nat) :=
  if isValidDate y m d then main_day fs y m d else Except.ok ([], 0, 2)

/-- Disk state split into the operations check_day performs (core) and the
layer it never queries: check_day contains no existence test on the
destination file, so destFileExists — the part of the disk that a completed
run's copies modify — is carried alongside but never read. -/
structure DiskState where
  core : FS
  destFileExists : List String → Bool

/-- check_day as a function of the full disk state. -/
def check_day_disk (st : DiskState) (y m d : Nat) :
    Except Unit (List String × List CopyOp) :=
  check_day st.core y m d

end Csr

namespace Fm
open SCCM

/-- Python's str.endswith. -/
def strEndsWith (s suffix : String) : Bool := suffix.data.isSuffixOf s.data

/-- Contiguous-sublist test on lists. -/
def hasInfix (sub : List Char) : List Char → Bool
  | [] => sub.isEmpty
  | x :: xs => sub.isPrefixOf (x :: xs) || hasInfix sub xs

/-- Python's `sub in s` on strings. -/
def strContains (s sub : String) : Bool := hasInfix sub.data s.data

/-- COLLECTOR_LOGS = os.path.join(sccm_home, "samples", "logs", "collectors"). -/
def COLLECTOR_LOGS : List String :=
  ["opt", "ibm", "sccm", "samples", "logs", "collectors"]

/-- The fixed required metadata field list of findMissingCSR.py. -/
def metadata : List String := ["ActionInProgress", "NetworkZone", "TemplateName"]

/-- search_metadata (findMissingCSR.py 163-177): counts how many required
fields occur in the record and compares with the length of the list. -/
def search_metadata (row : List String) : Bool :=
  (metadata.filter (fun f => row.contains f)).length == metadata.length

/-- The filesystem and registry state findMissingCSR.py reads.  readFile
yields the parsed csv rows of a file, or none when open/read raises;
providers is the result of get_providers, none when reading the registry
file raises. -/
structure MFS where
  isFile : List String → Bool
  isDir : List String → Bool
  readFile : List String → Option (List (List String))
  providers : Option (List String)

/-- os.path.exists. -/
def MFS.pathExists (fs : MFS) (p : List String) : Bool := fs.isDir p || fs.isFile p

/-- The run configuration: the validated date string and the mode flags,
plus the current UTC hour read from datetime.utcnow(). -/
structure MCfg where
  fullDate : String
  allDay : Bool
  upToNow : Bool
  curHour : Nat

def inputDir (process feed : String) : List String := COLLECTOR_LOGS ++ [process, feed]

def inputFile (cfg : MCfg) (process feed : String) : List String :=
  inputDir process feed ++ [cfg.fullDate ++ ".txt"]

def fileMissingMsg (p : List String) : String :=
  "The file " ++ pathStr p ++ " does not exist or is not a valid file."

def dirMissingMsg (p : List String) : String :=
  "The directory " ++ pathStr p ++ " does not exist or is not a valid directory."

/-- The "Error reading CSR input file" message; the interpolated exception
text is abstracted away. -/
def readErrMsg (p : List String) : String :=
  "Error reading CSR input file " ++ pathStr p

def metaMsg (row : List String) : String :=
  "Missing metadata field(s) in the following record:\n" ++ toString row ++ "\n"

def missingEntriesMsg (hour process feed : String) : String :=
  "Missing MCS entries for " ++ hour ++ " (process: " ++ process ++ ", feed: " ++ feed ++ ")"

def invalidProviderMsg (p : String) : String := "The provider " ++ p ++ " is not valid."

def providersReadMsg : String := "Error reading providers file"

def noProvidersMsg : String := "No active MCS providers were found"

/-- The record loop over a CSR file (findMissingCSR.py 232-245), carrying the
accumulated file_hours list.  Each record's fourth column is read first:
a record with fewer than four columns raises IndexError, which the
surrounding try/except turns into one file-read error and ends this file's
loop, keeping the hours collected so far.  Otherwise the hour is appended
when unseen and a metadata error is recorded when search_metadata fails.
Returns (file_hours, errors). -/
def processRows (fileP : List String) :
    List (List String) → List String → List String × List String
  | [], hours => (hours, [])
  | row :: rest, hours =>
    if 3 < row.length then
      let h := row.getD 3 ""
      let hours1 := if hours.contains h then hours else hours ++ [h]
      let es := if search_metadata row then [] else [metaMsg row]
      let r := processRows fileP rest hours1
      (r.1, es ++ r.2)
    else (hours, [readErrMsg fileP])

/-- datetime.replace(hour=i, minute=0, second=0).strftime("%H:%M:%S"). -/
def fmtHour (h : Nat) : String := pad2 h ++ ":00:00"

/-- `if hour not in comparison_hours: comparison_hours.append(hour)`. -/
def appendIfAbsent (l : List String) (x : String) : List String :=
  if l.contains x then l else l ++ [x]

/-- comparison_hours construction (findMissingCSR.py 256-282): all 24 hours
for --allday, hours 0..current UTC hour inclusive for --uptonow, and just
the current hour otherwise. -/
def comparison_hours (cfg : MCfg) : List String :=
  if cfg.allDay then
    (List.range 24).foldl (fun acc i => appendIfAbsent acc (fmtHour i)) []
  else if cfg.upToNow then
    (List.range (cfg.curHour + 1)).foldl (fun acc i => appendIfAbsent acc (fmtHour i)) []
  else [fmtHour cfg.curHour]

/-- The bucket-comparison loop (findMissingCSR.py 285-290): one error per
expected hour absent from the file's observed hours. -/
def reportMissing (process feed : String) (fileHours : List String) :
    List String → List String
  | [] => []
  | h :: rest =>
    (if fileHours.contains h then [] else [missingEntriesMsg h process feed])
      ++ reportMissing process feed fileHours rest

/-- The per-provider body of main (findMissingCSR.py 210-290) once the
process category and feed are fixed: existence checks on the input path and
file, the unconditional read of the file, then the bucket comparison. -/
def checkFiles (cfg : MCfg) (fs : MFS) (process feed : String) : List String :=
  let dirP := inputDir process feed
  let fullP := inputFile cfg process feed
  let e1 :=
    if fs.pathExists dirP then
      if fs.isFile fullP then [] else [fileMissingMsg fullP]
    else [dirMissingMsg dirP]
  let hoursErrs :=
    match fs.readFile fullP with
    | none => ([], [readErrMsg fullP])
    | some rows => processRows fullP rows []
  let e3 := reportMissing process feed hoursErrs.1 (comparison_hours cfg)
  e1 ++ hoursErrs.2 ++ e3

/-- Classification of a provider name by suffix (findMissingCSR.py 193-207). -/
inductive ProviderClass
  | nova
  | cinder
  | skipVMware
  | invalid

def classify (p : String) : ProviderClass :=
  if strEndsWith p "_nova" then ProviderClass.nova
  else if strEndsWith p "_cinder" then
    if strContains p "VMWARE" then ProviderClass.skipVMware else ProviderClass.cinder
  else ProviderClass.invalid

/-- One iteration of the provider loop.  The loop-carried state is the value
of the process variable from earlier iterations (none before any assignment).
VMWARE cinder providers are skipped via continue.  An unrecognized provider
records an error but has no continue, so the body still runs: with a previous
process value it is checked under that stale category; with none, the
log call reads the unbound process name and the NameError aborts the run
(the Except.error case). -/
def checkProvider (cfg : MCfg) (fs : MFS) (st : Option String) (p : String) :
    Except Unit (List String × Option String) :=
  match classify p with
  | ProviderClass.nova =>
    Except.ok (checkFiles cfg fs "nova_compute" p, some "nova_compute")
  | ProviderClass.cinder =>
    Except.ok (checkFiles cfg fs "cinder_volume" p, some "cinder_volume")
  | ProviderClass.skipVMware => Except.ok ([], st)
  | ProviderClass.invalid =>
    match st with
    | none => Except.error ()
    | some proc =>
      Except.ok (invalidProviderMsg p :: checkFiles cfg fs proc p, some proc)

/-- The provider loop of main (findMissingCSR.py 192-290). -/
def runProviders (cfg : MCfg) (fs : MFS) :
    Option String → List String → Except Unit (List String)
  | _, [] => Except.ok []
  | st, p :: ps =>
    match checkProvider cfg fs st p with
    | Except.error e => Except.error e
    | Except.ok r =>
      match runProviders cfg fs r.2 ps with
      | Except.error e => Except.error e
      | Except.ok rest => Except.ok (r.1 ++ rest)

/-- main (findMissingCSR.py 180-305) followed by the module-level exit(0):
yields (errors recorded via handle_error, number of emailer.build_email
invocations, process exit code).  errors_found is true exactly when at least
one handle_error call happened; the email is sent once in that case, and the
process then falls through to exit(0) regardless. -/
def fm_main (cfg : MCfg) (fs : MFS) : Except Unit (List String × Nat × Nat) :=
  match fs.providers with
  | none => Except.ok ([providersReadMsg, noProvidersMsg], 1, 0)
  | some ps =>
    match runProviders cfg fs none ps with
    | Except.error e => Except.error e
    | Except.ok errs =>
      Except.ok (errs, (if errs.isEmpty then 0 else 1), 0)

/-- A full run including get_args date validation (findMissingCSR.py
351-358): an invalid date exits with code 3 before main is called and before
any filesystem access. -/
def fm_run (cfg : MCfg) (fs : MFS) (y m d : Nat) :
    Except Unit (List String × Nat × Nat) :=
  if isValidDate y m d then fm_main cfg fs else Except.ok ([], 0, 3)

end Fm

namespace Inst
open SCCM

/-- A bare csr-side disk: no job root exists. -/
def fsEmptyCsr : Csr.FS where
  isFile := fun _ => false
  isDir := fun _ => false
  walkSubdirs := fun _ => []
  writable := fun _ => true
  makedirsOk := fun _ => true
  copy2 := fun _ _ => none

/-- A disk on which the backups job has one satellite directory with its
source file present, the destination directory is absent, and directory
creation fails. -/
def fsMakedirsFail : Csr.FS where
  isFile := fun p => p == Csr.srcFile 2024 6 5 "consolidation_backups" "sat1"
  isDir := fun p =>
    p == Csr.CSR_path ++ ["consolidation_backups"]
      || p == Csr.CSR_path ++ ["consolidation_cinder_volume"]
      || p == Csr.CSR_path ++ ["consolidation_nova_compute"]
  walkSubdirs := fun p =>
    if p == Csr.CSR_path ++ ["consolidation_backups"] then ["sat1"] else []
  writable := fun _ => true
  makedirsOk := fun _ => false
  copy2 := fun _ _ => none

/-- A disk on which the backups source file is present, the destination
directory exists and is writable, but the copy itself fails. -/
def fsCopyFail : Csr.FS where
  isFile := fun p => p == Csr.srcFile 2024 6 5 "consolidation_backups" "sat1"
  isDir := fun p =>
    p == Csr.CSR_path ++ ["consolidation_backups"]
      || p == Csr.destDir "consolidation_backups" "sat1"
  walkSubdirs := fun p =>
    if p == Csr.CSR_path ++ ["consolidation_backups"] then ["sat1"] else []
  writable := fun _ => true
  makedirsOk := fun _ => true
  copy2 := fun _ _ => some "disk full"

/-- The hour-checker configuration of a run with neither the allday nor the
uptonow flag, at UTC hour 0 on 2024-06-05. -/
def cfgHour0 : Fm.MCfg := ⟨"20240605", false, false, 0⟩

/-- An uptonow-mode configuration at UTC hour 5. -/
def cfgUpToNow5 : Fm.MCfg := ⟨"20240605", false, true, 5⟩

/-- An hour-checker state whose registry holds a single nova provider and
whose disk holds nothing at all. -/
def fsOneNova : Fm.MFS where
  isFile := fun _ => false
  isDir := fun _ => false
  readFile := fun _ => none
  providers := some ["prov_nova"]

/-- An hour-checker state whose registry starts with an unclassifiable
provider name. -/
def fsBadFirst : Fm.MFS where
  isFile := fun _ => false
  isDir := fun _ => false
  readFile := fun _ => none
  providers := some ["badprovider", "good_nova"]

/-- An hour-checker state where the nova provider directory exists but the
day's file is absent, so reading it raises. -/
def fsDirOnly : Fm.MFS where
  isFile := fun _ => false
  isDir := fun p => p == Fm.inputDir "nova_compute" "prov_nova"
  readFile := fun _ => none
  providers := some ["prov_nova"]

/-- A provider file whose first record is short (three columns, missing all
required metadata fields) and whose second record is complete. -/
def rowsShortFirst : List (List String) :=
  [["A", "B"],
   ["x", "y", "z", "00:00:00", "ActionInProgress", "NetworkZone", "TemplateName"]]

/-- A provider file with one complete record and one full-length record that
lacks the required metadata fields. -/
def rowsMetaGap : List (List String) :=
  [["x", "y", "z", "00:00:00", "ActionInProgress", "NetworkZone", "TemplateName"],
   ["x", "y", "z", "01:00:00", "NetworkZone"]]

/-- The input file path of the nova provider checked in the examples. -/
def pNova : List String := Fm.inputFile cfgHour0 "nova_compute" "prov_nova"

/-- The copy-failure disk before a first run: no destination files yet. -/
def dsCopyA : Csr.DiskState := ⟨fsCopyFail, fun _ => false⟩

/-- The same disk after a completed run: destination files are in place, the
sources and directories unchanged. -/
def dsCopyB : Csr.DiskState := ⟨fsCopyFail, fun _ => true⟩

end Inst

namespace Aux
open SCCM

/-- The dedup-on-append loop over zero-padded hour labels never actually
drops anything for ranges within a day, since the labels are pairwise
distinct. -/
theorem hoursFold_eq : ∀ n, n < 25 →
    (List.range n).foldl (fun acc i => Fm.appendIfAbsent acc (Fm.fmtHour i)) []
      = (List.range n).map Fm.fmtHour := by decide

theorem hoursNodup : ∀ n, n < 25 → ((List.range n).map Fm.fmtHour).Nodup := by
  decide

/-- The bucket-comparison loop reports exactly the expected buckets absent
from the observed hours, in order. -/
theorem reportMissing_eq (process feed : String) (fileHours : List String) :
    ∀ l, Fm.reportMissing process feed fileHours l
      = (l.filter (fun h => !(fileHours.contains h))).map
          (fun h => Fm.missingEntriesMsg h process feed) := by
  intro l
  induction l with
  | nil => rfl
  | cons h rest ih =>
    simp only [Fm.reportMissing, List.filter_cons]
    cases hc : fileHours.contains h <;> simp [ih]

/-- An error recorded by one job of check_day appears in the error list of a
completed check_day run. -/
theorem checkJobs_mem (fs : Csr.FS) (y m d : Nat) :
    ∀ (l : List String) (job : String) (ej r : List String × List Csr.CopyOp),
      job ∈ l → Csr.checkJob fs y m d job = Except.ok ej →
      Csr.checkJobs fs y m d l = Except.ok r →
      ∀ x ∈ ej.1, x ∈ r.1 := by
  intro l
  induction l with
  | nil =>
    intro job ej r hmem
    exact absurd hmem (List.not_mem_nil job)
  | cons j rest ih =>
    intro job ej r hmem hjob hl x hx
    simp only [Csr.checkJobs] at hl
    rcases List.mem_cons.mp hmem with hEq | hmemRest
    · subst hEq
      rw [hjob] at hl
      cases hrest : Csr.checkJobs fs y m d rest with
      | error e => rw [hrest] at hl; exact Except.noConfusion hl
      | ok rs =>
        rw [hrest] at hl
        simp only [Except.ok.injEq] at hl
        subst hl
        exact List.mem_append_left _ hx
    · cases hj : Csr.checkJob fs y m d j with
      | error e => rw [hj] at hl; exact Except.noConfusion hl
      | ok rj =>
        rw [hj] at hl
        cases hrest : Csr.checkJobs fs y m d rest with
        | error e => rw [hrest] at hl; exact Except.noConfusion hl
        | ok rs =>
          rw [hrest] at hl
          simp only [Except.ok.injEq] at hl
          subst hl
          exact List.mem_append_right _ (ih job ej rs hmemRest hjob hrest x hx)

/-- With no observed hours, every expected bucket is reported. -/
theorem reportMissing_nil (process feed : String) :
    ∀ l, Fm.reportMissing process feed [] l
      = l.map (fun h => Fm.missingEntriesMsg h process feed) := by
  intro l
  induction l with
  | nil => rfl
  | cons h rest ih => simp [Fm.reportMissing, ih]

/-- The shape of checkArtifact when the source file is present and the
destination directory either exists or gets created: the copy is attempted
exactly once, and only the writability check and the copy itself can add
errors. -/
theorem checkArtifact_present (fs : Csr.FS) (y m d : Nat) (job sub : String)
    (hsrc : fs.isFile (Csr.srcFile y m d job sub) = true)
    (hdm : (fs.isDir (Csr.destDir job sub)
        || fs.makedirsOk (Csr.destDir job sub)) = true) :
    Csr.checkArtifact fs y m d job sub
      = Except.ok ((if !(fs.writable (Csr.destDir job sub))
            then [Csr.notWritableMsg (Csr.destDir job sub)] else [])
          ++ (match fs.copy2 (Csr.srcFile y m d job sub) (Csr.destDir job sub) with
              | none => []
              | some e => [Csr.copyFailMsg e]),
          [(Csr.srcFile y m d job sub, Csr.destDir job sub)]) := by
  cases hd : fs.isDir (Csr.destDir job sub) with
  | true => simp [Csr.checkArtifact, hsrc, hd]
  | false =>
    rw [hd] at hdm
    simp only [Bool.false_or] at hdm
    simp [Csr.checkArtifact, hsrc, hd, hdm]

end Aux

/-- C1, counterexample: a run of the hour-granularity checker over a registry
with one nova provider and an empty disk records three errors and invokes the
reporter once, yet the process exit code is 0, not 1: findMissingCSR.py has
no exit(1) and falls through to the module-level exit(0), contradicting the
claim that a run which found errors and sent the notification exits with
code 1. -/
theorem c1_counterexample :
    Fm.fm_main Inst.cfgHour0 Inst.fsOneNova =
      Except.ok ([Fm.dirMissingMsg (Fm.inputDir "nova_compute" "prov_nova"),
        Fm.readErrMsg (Fm.inputFile Inst.cfgHour0 "nova_compute" "prov_nova"),
        Fm.missingEntriesMsg "00:00:00" "nova_compute" "prov_nova"], 1, 0) := by
  rfl

/-- C1, amended: in every run of either checker that terminates without an
unhandled exception, the reporter is invoked exactly once at the end of the
run iff at least one error was recorded, and otherwise not at all; the
day-granularity checker then exits 1 when errors were found and 0 otherwise,
while the hour-granularity checker exits 0 in both cases. -/
theorem c1_reporter_and_exit :
    (∀ (fs : Csr.FS) (y m d : Nat) (r : List String × List Csr.CopyOp),
      Csr.check_day fs y m d = Except.ok r →
      Csr.main_day fs y m d =
        Except.ok (r.1, (if r.1.isEmpty then 0 else 1),
          (if r.1.isEmpty then 0 else 1)))
  ∧ (∀ (fs : Csr.FS) (today : SCCM.Date) (ma : Csr.MonthArg)
      (r : List String × List Csr.CopyOp),
      Csr.run_month fs today ma = Except.ok r →
      Csr.main_month fs today ma =
        Except.ok (r.1, (if r.1.isEmpty then 0 else 1),
          (if r.1.isEmpty then 0 else 1)))
  ∧ (∀ (cfg : Fm.MCfg) (fs : Fm.MFS) (ps : List String) (errs : List String),
      fs.providers = some ps →
      Fm.runProviders cfg fs none ps = Except.ok errs →
      Fm.fm_main cfg fs = Except.ok (errs, (if errs.isEmpty then 0 else 1), 0)) := by
  refine ⟨?_, ?_, ?_⟩
  · intro fs y m d r h
    obtain ⟨errs, cps⟩ := r
    rw [Csr.main_day, h]
    cases herrs : errs.isEmpty <;> simp [Csr.report, herrs]
  · intro fs today ma r h
    obtain ⟨errs, cps⟩ := r
    rw [Csr.main_month, h]
    cases herrs : errs.isEmpty <;> simp [Csr.report, herrs]
  · intro cfg fs ps errs hp hrun
    simp only [Fm.fm_main, hp, hrun]

/-- C1, witness: the amended theorem applied to a concrete day-granularity
run on an empty disk, where all three job roots are missing: three errors,
one reporter invocation, exit code 1. -/
theorem c1_reporter_and_exit_witness :
    Csr.main_day Inst.fsEmptyCsr 2024 6 5 =
      Except.ok ([Csr.pathMissingMsg (Csr.CSR_path ++ ["consolidation_backups"]),
        Csr.pathMissingMsg (Csr.CSR_path ++ ["consolidation_cinder_volume"]),
        Csr.pathMissingMsg (Csr.CSR_path ++ ["consolidation_nova_compute"])], 1, 1) :=
  c1_reporter_and_exit.1 Inst.fsEmptyCsr 2024 6 5
    ([Csr.pathMissingMsg (Csr.CSR_path ++ ["consolidation_backups"]),
      Csr.pathMissingMsg (Csr.CSR_path ++ ["consolidation_cinder_volume"]),
      Csr.pathMissingMsg (Csr.CSR_path ++ ["consolidation_nova_compute"])], [])
    (by rfl)

/-- C2, counterexample: on the Gregorian-invalid date 2017-02-31 the
hour-granularity checker exits with code 3, not with the claimed code 2. -/
theorem c2_counterexample :
    Fm.fm_run Inst.cfgHour0 Inst.fsOneNova 2017 2 31 = Except.ok ([], 0, 3)
  ∧ Fm.fm_run Inst.cfgHour0 Inst.fsOneNova 2017 2 31 ≠ Except.ok ([], 0, 2) := by
  refine ⟨rfl, ?_⟩
  intro h
  rw [show Fm.fm_run Inst.cfgHour0 Inst.fsOneNova 2017 2 31
      = Except.ok ([], 0, 3) from rfl] at h
  simp at h

/-- C2, amended: on every Gregorian-invalid (year, month, day) triple each
checker fails during argument validation before any filesystem access (the
result does not depend on the disk at all): the day-granularity checker with
exit code 2, the hour-granularity checker with exit code 3. -/
theorem c2_invalid_date (y m d : Nat) (h : SCCM.isValidDate y m d = false) :
    (∀ fs : Csr.FS, Csr.run_day fs y m d = Except.ok ([], 0, 2))
  ∧ (∀ (cfg : Fm.MCfg) (fs : Fm.MFS),
      Fm.fm_run cfg fs y m d = Except.ok ([], 0, 3)) := by
  constructor
  · intro fs
    rw [Csr.run_day, h]
    rfl
  · intro cfg fs
    rw [Fm.fm_run, h]
    rfl

/-- C3: in CURMON mode the day loop of check_month runs from day 1 through
yesterday; except on the 1st of the month, where the resolved year and month
are moved to the previous month and the loop bound becomes that month's full
length, so the run equals a PREMON run on the same day. -/
theorem c3_curmon_day_range (today : SCCM.Date) (fs : Csr.FS)
    (hm1 : 1 ≤ today.m) (hm12 : today.m ≤ 12) (hd1 : 1 ≤ today.d)
    (hdd : today.d ≤ SCCM.daysInMonth today.y today.m) :
    (today.d = 1 →
      Csr.check_month_plan today true today.y today.m
        = ((SCCM.premonYM today).1, (SCCM.premonYM today).2,
            SCCM.daysInMonth (SCCM.premonYM today).1 (SCCM.premonYM today).2)
      ∧ Csr.run_month fs today Csr.MonthArg.curmon
          = Csr.run_month fs today Csr.MonthArg.premon)
  ∧ (2 ≤ today.d →
      Csr.check_month_plan today true today.y today.m
        = (today.y, today.m, today.d - 1)) := by
  obtain ⟨y, m, d⟩ := today
  dsimp only at hm1 hm12 hd1 hdd ⊢
  constructor
  · intro hd
    subst hd
    have hplan : Csr.check_month_plan ⟨y, m, 1⟩ true y m
        = ((SCCM.premonYM ⟨y, m, 1⟩).1, (SCCM.premonYM ⟨y, m, 1⟩).2,
            SCCM.daysInMonth (SCCM.premonYM ⟨y, m, 1⟩).1
              (SCCM.premonYM ⟨y, m, 1⟩).2) := by
      by_cases hm : 1 < m
      · simp [Csr.check_month_plan, SCCM.yesterday, SCCM.premonYM, hm]
      · have hm' : m = 1 := Nat.le_antisymm (Nat.not_lt.mp hm) hm1
        subst hm'
        rfl
    refine ⟨hplan, ?_⟩
    simp only [Csr.run_month, Csr.resolveMonthYM, Csr.check_month]
    rw [hplan]
    rfl
  · intro hd2
    have hne : ¬ d = 1 := by omega
    have hlt : 1 < d := by omega
    simp [Csr.check_month_plan, SCCM.yesterday, hne, hlt]

/-- C3, witness: on 2024-03-01 (the 1st of a month) the CURMON plan resolves
to February 2024 with 29 days, and the CURMON run equals the PREMON run. -/
theorem c3_curmon_day_range_witness :
    Csr.check_month_plan ⟨2024, 3, 1⟩ true 2024 3 = (2024, 2, 29)
  ∧ Csr.run_month Inst.fsEmptyCsr ⟨2024, 3, 1⟩ Csr.MonthArg.curmon
      = Csr.run_month Inst.fsEmptyCsr ⟨2024, 3, 1⟩ Csr.MonthArg.premon := by
  have h := (c3_curmon_day_range ⟨2024, 3, 1⟩ Inst.fsEmptyCsr (by decide)
    (by decide) (by decide) (by decide)).1 rfl
  exact ⟨h.1, h.2⟩

/-- C4: in the day-granularity check, a job whose root path does not exist
yields exactly one path-missing error and zero enumerated artifacts, the
remaining jobs are still processed, and when the run completes the job's
error is in the final list and main sends the notification and exits 1. -/
theorem c4_missing_job_root (fs : Csr.FS) (y m d : Nat) (job : String)
    (hj : job ∈ Csr.job_names)
    (hmiss : fs.pathExists (Csr.CSR_path ++ [job]) = false) :
    Csr.checkJob fs y m d job
      = Except.ok ([Csr.pathMissingMsg (Csr.CSR_path ++ [job])], [])
  ∧ ∀ errs cps, Csr.check_day fs y m d = Except.ok (errs, cps) →
      Csr.pathMissingMsg (Csr.CSR_path ++ [job]) ∈ errs
      ∧ Csr.main_day fs y m d = Except.ok (errs, 1, 1) := by
  have hjob : Csr.checkJob fs y m d job
      = Except.ok ([Csr.pathMissingMsg (Csr.CSR_path ++ [job])], []) := by
    simp [Csr.checkJob, hmiss]
  refine ⟨hjob, ?_⟩
  intro errs cps hcd
  rw [Csr.check_day] at hcd
  have hmem : Csr.pathMissingMsg (Csr.CSR_path ++ [job]) ∈ errs :=
    Aux.checkJobs_mem fs y m d Csr.job_names job
      ([Csr.pathMissingMsg (Csr.CSR_path ++ [job])], []) (errs, cps) hj hjob hcd
      _ (List.mem_cons_self _ _)
  refine ⟨hmem, ?_⟩
  have hne : errs ≠ [] := List.ne_nil_of_mem hmem
  rw [Csr.main_day, Csr.check_day, hcd]
  cases errs with
  | nil => exact absurd rfl hne
  | cons a t => simp [Csr.report]

/-- C4, witness: on the empty disk the backups job root is missing, its check
yields the single path error and no artifacts, and the completed run carries
that error and exits 1 after one notification. -/
theorem c4_missing_job_root_witness :
    "consolidation_backups" ∈ Csr.job_names
  ∧ Inst.fsEmptyCsr.pathExists (Csr.CSR_path ++ ["consolidation_backups"]) = false
  ∧ Csr.checkJob Inst.fsEmptyCsr 2024 6 5 "consolidation_backups"
      = Except.ok ([Csr.pathMissingMsg (Csr.CSR_path ++ ["consolidation_backups"])], [])
  ∧ Csr.pathMissingMsg (Csr.CSR_path ++ ["consolidation_backups"])
      ∈ [Csr.pathMissingMsg (Csr.CSR_path ++ ["consolidation_backups"]),
         Csr.pathMissingMsg (Csr.CSR_path ++ ["consolidation_cinder_volume"]),
         Csr.pathMissingMsg (Csr.CSR_path ++ ["consolidation_nova_compute"])] := by
  have h := c4_missing_job_root Inst.fsEmptyCsr 2024 6 5 "consolidation_backups"
    (by decide) (by rfl)
  exact ⟨by decide, by rfl, h.1,
    (h.2 [Csr.pathMissingMsg (Csr.CSR_path ++ ["consolidation_backups"]),
       Csr.pathMissingMsg (Csr.CSR_path ++ ["consolidation_cinder_volume"]),
       Csr.pathMissingMsg (Csr.CSR_path ++ ["consolidation_nova_compute"])] []
      (by rfl)).1⟩

/-- C5, counterexample: a disk on which the backups source file is present,
its destination directory is absent and directory creation fails.  The claim
says the creation failure is recorded as an error and the copy skipped; the
code instead aborts the whole run, because the handler line
(except e as exception) evaluates the undefined name e and the resulting
NameError propagates. -/
theorem c5_counterexample :
    Inst.fsMakedirsFail.isFile
      (Csr.srcFile 2024 6 5 "consolidation_backups" "sat1") = true
  ∧ Inst.fsMakedirsFail.isDir (Csr.destDir "consolidation_backups" "sat1") = false
  ∧ Inst.fsMakedirsFail.makedirsOk (Csr.destDir "consolidation_backups" "sat1") = false
  ∧ Csr.check_day Inst.fsMakedirsFail 2024 6 5 = Except.error () := by
  exact ⟨by rfl, by rfl, by rfl, by rfl⟩

/-- C5, amended: for an artifact whose source file is present, a missing
destination directory is created via makedirs; if the creation fails the run
aborts with an unhandled NameError (broken handler), so no error is recorded
and the copy is not attempted; when the directory exists or is created, a
failing copy records one error carrying the exception text and the loop
continues with the next artifact, while a successful copy records none. -/
theorem c5_copier (fs : Csr.FS) (y m d : Nat) (job sub : String)
    (hsrc : fs.isFile (Csr.srcFile y m d job sub) = true) :
    (fs.isDir (Csr.destDir job sub) = false →
      fs.makedirsOk (Csr.destDir job sub) = false →
      Csr.checkArtifact fs y m d job sub = Except.error ())
  ∧ (fs.isDir (Csr.destDir job sub) = false →
      fs.makedirsOk (Csr.destDir job sub) = true →
      fs.writable (Csr.destDir job sub) = true →
      fs.copy2 (Csr.srcFile y m d job sub) (Csr.destDir job sub) = none →
      Csr.checkArtifact fs y m d job sub
        = Except.ok ([], [(Csr.srcFile y m d job sub, Csr.destDir job sub)]))
  ∧ ∀ e, fs.writable (Csr.destDir job sub) = true →
      (fs.isDir (Csr.destDir job sub) || fs.makedirsOk (Csr.destDir job sub)) = true →
      fs.copy2 (Csr.srcFile y m d job sub) (Csr.destDir job sub) = some e →
      Csr.checkArtifact fs y m d job sub
        = Except.ok ([Csr.copyFailMsg e],
            [(Csr.srcFile y m d job sub, Csr.destDir job sub)])
      ∧ ∀ rest r, Csr.checkSubs fs y m d job rest = Except.ok r →
          Csr.checkSubs fs y m d job (sub :: rest)
            = Except.ok (Csr.copyFailMsg e :: r.1,
                (Csr.srcFile y m d job sub, Csr.destDir job sub) :: r.2) := by
  refine ⟨?_, ?_, ?_⟩
  · intro hdir hmk
    simp [Csr.checkArtifact, hsrc, hdir, hmk]
  · intro hdir hmk hw hcp
    simp [Csr.checkArtifact, hsrc, hdir, hmk, hw, hcp]
  · intro e hw hdm hcp
    have hart : Csr.checkArtifact fs y m d job sub
        = Except.ok ([Csr.copyFailMsg e],
            [(Csr.srcFile y m d job sub, Csr.destDir job sub)]) := by
      cases hd : fs.isDir (Csr.destDir job sub) with
      | true => simp [Csr.checkArtifact, hsrc, hd, hw, hcp]
      | false =>
        rw [hd] at hdm
        simp only [Bool.false_or] at hdm
        simp [Csr.checkArtifact, hsrc, hd, hdm, hw, hcp]
    refine ⟨hart, ?_⟩
    intro rest r hrest
    obtain ⟨es, cs⟩ := r
    simp [Csr.checkSubs, hart, hrest]

/-- C5, witness: the amended theorem at the copy-failure disk: one copy error
is recorded, the artifact pair is in the attempted copies, and the loop
continuation holds for the empty remainder. -/
theorem c5_copier_witness :
    Csr.checkArtifact Inst.fsCopyFail 2024 6 5 "consolidation_backups" "sat1"
      = Except.ok ([Csr.copyFailMsg "disk full"],
          [(Csr.srcFile 2024 6 5 "consolidation_backups" "sat1",
            Csr.destDir "consolidation_backups" "sat1")])
  ∧ Csr.checkSubs Inst.fsCopyFail 2024 6 5 "consolidation_backups" ["sat1"]
      = Except.ok ([Csr.copyFailMsg "disk full"],
          [(Csr.srcFile 2024 6 5 "consolidation_backups" "sat1",
            Csr.destDir "consolidation_backups" "sat1")]) := by
  have h := (c5_copier Inst.fsCopyFail 2024 6 5 "consolidation_backups" "sat1"
    (by rfl)).2.2 "disk full" (by rfl) (by rfl) (by rfl)
  exact ⟨h.1, by
    have h2 := h.2 [] ([], []) (by rfl)
    simpa using h2⟩

/-- C6, code bug: classification by suffix works as claimed for nova, cinder
and exempted VMWARE-cinder providers, but when a provider with an
unrecognized suffix is encountered before any provider has been classified
(here, first in the registry), main records the configuration error and then,
lacking a continue, reads the still-unbound process variable, so the run
crashes with a NameError instead of continuing with the remaining providers
(good_nova is never checked). -/
theorem c6_first_invalid_crash :
    Fm.classify "badprovider" = Fm.ProviderClass.invalid
  ∧ Fm.runProviders Inst.cfgHour0 Inst.fsBadFirst none ["badprovider", "good_nova"]
      = Except.error ()
  ∧ Fm.fm_main Inst.cfgHour0 Inst.fsBadFirst = Except.error () := by
  exact ⟨by rfl, by rfl, by rfl⟩

/-- C7, counterexample: a provider file whose first record has only two
columns — so it is missing every required metadata field — and whose second
record is complete.  The claim predicts one MetadataIncomplete error for the
first record and continued processing; instead the row[3] access raises
IndexError, the loop is abandoned with a single file-read error, no
metadata error is recorded, and the second record is never processed (its
hour bucket is not collected). -/
theorem c7_counterexample :
    Fm.search_metadata ["A", "B"] = false
  ∧ Fm.processRows Inst.pNova Inst.rowsShortFirst []
      = ([], [Fm.readErrMsg Inst.pNova])
  ∧ ¬ Fm.metaMsg ["A", "B"] ∈ (Fm.processRows Inst.pNova Inst.rowsShortFirst []).2 := by
  refine ⟨by rfl, by rfl, ?_⟩
  intro hmem
  rw [show (Fm.processRows Inst.pNova Inst.rowsShortFirst []).2
      = [Fm.readErrMsg Inst.pNova] from rfl] at hmem
  simp [Fm.metaMsg, Fm.readErrMsg, Inst.pNova] at hmem
  exact absurd hmem (by decide)

/-- C7, amended: over the records of a provider file in which every record
has at least four columns, the record loop reports exactly one metadata
error per record that is missing a required metadata field, in file order,
and keeps processing the remaining records. -/
theorem c7_per_record_error (p : List String) (rows : List (List String))
    (hours : List String) (hlen : ∀ r ∈ rows, 3 < r.length) :
    (Fm.processRows p rows hours).2
      = (rows.filter (fun r => !Fm.search_metadata r)).map Fm.metaMsg := by
  induction rows generalizing hours with
  | nil => rfl
  | cons row rest ih =>
    have hrow : 3 < row.length := hlen row (List.mem_cons_self _ _)
    have hrest : ∀ r ∈ rest, 3 < r.length :=
      fun r hr => hlen r (List.mem_cons_of_mem _ hr)
    simp only [Fm.processRows, if_pos hrow, List.filter_cons]
    cases hm : Fm.search_metadata row <;> simp [hm, ih _ hrest]

/-- C7, witness: the amended theorem on a file with one complete record and
one full-length record missing two required fields: exactly one metadata
error, for the offending record. -/
theorem c7_per_record_error_witness :
    (Fm.processRows Inst.pNova Inst.rowsMetaGap []).2
      = [Fm.metaMsg ["x", "y", "z", "01:00:00", "NetworkZone"]] := by
  rw [c7_per_record_error Inst.pNova Inst.rowsMetaGap [] (by decide)]
  rfl

/-- C8: the expected-bucket list is the zero-padded HH:00:00 labels of hours
0..23 in allday mode, 0..current UTC hour inclusive in uptonow mode, and
exactly the truncated current hour otherwise; the list has no duplicates,
and after a file is read each expected bucket absent from the observed hours
yields exactly one missing-entries error, in order. -/
theorem c8_hour_buckets (cfg : Fm.MCfg) (hc : cfg.curHour < 24)
    (process feed : String) (fileHours : List String) :
    (cfg.allDay = true →
      Fm.comparison_hours cfg = (List.range 24).map Fm.fmtHour)
  ∧ (cfg.allDay = false → cfg.upToNow = true →
      Fm.comparison_hours cfg = (List.range (cfg.curHour + 1)).map Fm.fmtHour)
  ∧ (cfg.allDay = false → cfg.upToNow = false →
      Fm.comparison_hours cfg = [Fm.fmtHour cfg.curHour])
  ∧ (Fm.comparison_hours cfg).Nodup
  ∧ Fm.reportMissing process feed fileHours (Fm.comparison_hours cfg)
      = ((Fm.comparison_hours cfg).filter (fun h => !(fileHours.contains h))).map
          (fun h => Fm.missingEntriesMsg h process feed) := by
  have hall : cfg.allDay = true →
      Fm.comparison_hours cfg = (List.range 24).map Fm.fmtHour := by
    intro ha
    rw [Fm.comparison_hours, ha, if_pos rfl]
    exact Aux.hoursFold_eq 24 (by omega)
  have hup : cfg.allDay = false → cfg.upToNow = true →
      Fm.comparison_hours cfg = (List.range (cfg.curHour + 1)).map Fm.fmtHour := by
    intro ha hu
    rw [Fm.comparison_hours, ha, hu]
    simp only [Bool.false_eq_true, if_false, if_pos rfl]
    exact Aux.hoursFold_eq (cfg.curHour + 1) (by omega)
  have hcur : cfg.allDay = false → cfg.upToNow = false →
      Fm.comparison_hours cfg = [Fm.fmtHour cfg.curHour] := by
    intro ha hu
    rw [Fm.comparison_hours, ha, hu]
    simp
  refine ⟨hall, hup, hcur, ?_, Aux.reportMissing_eq process feed fileHours _⟩
  cases ha : cfg.allDay with
  | true => rw [hall ha]; exact Aux.hoursNodup 24 (by omega)
  | false =>
    cases hu : cfg.upToNow with
    | true => rw [hup ha hu]; exact Aux.hoursNodup (cfg.curHour + 1) (by omega)
    | false => rw [hcur ha hu]; exact List.nodup_singleton _

/-- C8, witness: the theorem at the uptonow configuration with current UTC
hour 5, against observed hours containing only the 03:00:00 bucket. -/
theorem c8_hour_buckets_witness :
    Inst.cfgUpToNow5.curHour < 24
  ∧ Fm.comparison_hours Inst.cfgUpToNow5 = (List.range 6).map Fm.fmtHour
  ∧ (Fm.comparison_hours Inst.cfgUpToNow5).Nodup
  ∧ Fm.reportMissing "nova_compute" "prov_nova" ["03:00:00"]
        (Fm.comparison_hours Inst.cfgUpToNow5)
      = ((Fm.comparison_hours Inst.cfgUpToNow5).filter
            (fun h => !(["03:00:00"].contains h))).map
          (fun h => Fm.missingEntriesMsg h "nova_compute" "prov_nova") := by
  have h := c8_hour_buckets Inst.cfgUpToNow5 (by decide) "nova_compute"
    "prov_nova" ["03:00:00"]
  exact ⟨by decide, h.2.1 rfl rfl, h.2.2.2.1, h.2.2.2.2⟩

/-- C9: the day-granularity check reads nothing from the destination-file
layer of the disk, so two disks with identical core state — in particular,
an unchanged source tree before and after a completed run whose only effect
was to deposit destination files — produce identical error lists and copy
operations; and for every artifact whose source is present (and whose
destination directory exists or is created) the copy is attempted exactly
once, a successful re-copy recording no error. -/
theorem c9_rerun_same_errors (s1 s2 : Csr.DiskState) (hcore : s1.core = s2.core)
    (y m d : Nat) :
    Csr.check_day_disk s1 y m d = Csr.check_day_disk s2 y m d
  ∧ ∀ job sub, s1.core.isFile (Csr.srcFile y m d job sub) = true →
      (s1.core.isDir (Csr.destDir job sub)
        || s1.core.makedirsOk (Csr.destDir job sub)) = true →
      ∃ errs, Csr.checkArtifact s1.core y m d job sub
          = Except.ok (errs, [(Csr.srcFile y m d job sub, Csr.destDir job sub)])
        ∧ (s1.core.writable (Csr.destDir job sub) = true →
            s1.core.copy2 (Csr.srcFile y m d job sub) (Csr.destDir job sub) = none →
            errs = []) := by
  constructor
  · rw [Csr.check_day_disk, Csr.check_day_disk, hcore]
  · intro job sub hsrc hdm
    refine ⟨_, Aux.checkArtifact_present s1.core y m d job sub hsrc hdm, ?_⟩
    intro hw hcp
    simp [hw, hcp]

/-- C9, witness: the same source tree with and without destination files
already present produces the same check_day output, and the present source
artifact has its copy attempted. -/
theorem c9_rerun_same_errors_witness :
    Inst.dsCopyA.core = Inst.dsCopyB.core
  ∧ Csr.check_day_disk Inst.dsCopyA 2024 6 5
      = Csr.check_day_disk Inst.dsCopyB 2024 6 5 :=
  ⟨rfl, (c9_rerun_same_errors Inst.dsCopyA Inst.dsCopyB rfl 2024 6 5).1⟩

/-- C10: a provider (here classified by the nova suffix) whose expected
source file is absent while its directory exists accumulates a
file-does-not-exist error, then a read error from the unconditional open of
the same file, then one missing-entries error for every expected hour bucket
(the observed-hours set stays empty): 2 + H errors in total, not a single
missing-source result. -/
theorem c10_missing_file_error_count (cfg : Fm.MCfg) (fs : Fm.MFS) (p : String)
    (hnova : Fm.strEndsWith p "_nova" = true)
    (hdir : fs.pathExists (Fm.inputDir "nova_compute" p) = true)
    (hfile : fs.isFile (Fm.inputFile cfg "nova_compute" p) = false)
    (hread : fs.readFile (Fm.inputFile cfg "nova_compute" p) = none) :
    (∀ st, Fm.checkProvider cfg fs st p
        = Except.ok (Fm.checkFiles cfg fs "nova_compute" p, some "nova_compute"))
  ∧ Fm.checkFiles cfg fs "nova_compute" p
      = [Fm.fileMissingMsg (Fm.inputFile cfg "nova_compute" p),
         Fm.readErrMsg (Fm.inputFile cfg "nova_compute" p)]
        ++ (Fm.comparison_hours cfg).map
            (fun h => Fm.missingEntriesMsg h "nova_compute" p)
  ∧ (Fm.checkFiles cfg fs "nova_compute" p).length
      = 2 + (Fm.comparison_hours cfg).length := by
  have hclass : Fm.classify p = Fm.ProviderClass.nova := by
    simp [Fm.classify, hnova]
  have hcf : Fm.checkFiles cfg fs "nova_compute" p
      = [Fm.fileMissingMsg (Fm.inputFile cfg "nova_compute" p),
         Fm.readErrMsg (Fm.inputFile cfg "nova_compute" p)]
        ++ (Fm.comparison_hours cfg).map
            (fun h => Fm.missingEntriesMsg h "nova_compute" p) := by
    rw [Fm.checkFiles, hread]
    rw [Aux.reportMissing_nil]
    simp [hdir, hfile]
  refine ⟨?_, hcf, ?_⟩
  · intro st
    simp [Fm.checkProvider, hclass]
  · rw [hcf]
    simp
    omega

/-- C10, witness: the theorem at the concrete state where the nova provider
directory exists but the day's file is absent, in current-hour-only mode:
exactly 2 + 1 errors. -/
theorem c10_missing_file_error_count_witness :
    Fm.strEndsWith "prov_nova" "_nova" = true
  ∧ Fm.checkFiles Inst.cfgHour0 Inst.fsDirOnly "nova_compute" "prov_nova"
      = [Fm.fileMissingMsg Inst.pNova, Fm.readErrMsg Inst.pNova,
         Fm.missingEntriesMsg "00:00:00" "nova_compute" "prov_nova"]
  ∧ (Fm.checkFiles Inst.cfgHour0 Inst.fsDirOnly "nova_compute" "prov_nova").length
      = 3 := by
  have h := c10_missing_file_error_count Inst.cfgHour0 Inst.fsDirOnly "prov_nova"
    (by rfl) (by rfl) (by rfl) (by rfl)
  refine ⟨by rfl, ?_, ?_⟩
  · rw [h.2.1]; rfl
  · rw [h.2.2]; rfl

/-- C2, witness: the amended theorem at the concrete invalid date
2017-02-31. -/
theorem c2_invalid_date_witness :
    SCCM.isValidDate 2017 2 31 = false
  ∧ Csr.run_day Inst.fsEmptyCsr 2017 2 31 = Except.ok ([], 0, 2)
  ∧ Fm.fm_run Inst.cfgHour0 Inst.fsOneNova 2017 2 31 = Except.ok ([], 0, 3) :=
  ⟨by decide,
   (c2_invalid_date 2017 2 31 (by decide)).1 Inst.fsEmptyCsr,
   (c2_invalid_date 2017 2 31 (by decide)).2 Inst.cfgHour0 Inst.fsOneNova⟩
